import Mathlib

/-!
Shallow embedding of getlantern/trafficlog-flashlight.

The definitions below are translated from the repository's Go source:
  - the shared exit-code taxonomy (internal/exitcodes, final variant:
    UnexpectedFailure=1, BadInput=2, FailedCheck=3, Outdated=4);
  - Go error values and the `errors.Is` / `errors.As` unwrap chain as used
    by the code (`fmt.Errorf` with `%w`, typed error values, sentinels);
  - the process supervisor (tlproc/tlproc.go, final variant: the mutex and
    `closed`-channel based `TrafficLogProcess`), its `Close`, `sendError`,
    `sendStats` and `watchStderr` routines, and the stderr line protocol
    shared with internal/cmd/tlserver;
  - the install coordinator (tlproc/install.go, final variant: the
    `InstallOptions`-based `Install`) check / elevate / re-check phases;
  - the device configurator (internal/cmd/config-bpf, final `-test`-flag
    variant) as an effect-trace interpreter.

Go machine integers are modelled as `Int` (exit codes, GIDs, durations in
nanoseconds); strings as `String` or `List Char` where character-level
reasoning is needed; fallible calls as `Option` / `Except`; the results of
external system calls are supplied by explicit environment records.
-/

namespace Tlfl

/-! ## Go errors and the unwrap chain

Model of the Go error values this repository creates and inspects: the
typed errors of package `exitcodes`, `exec.ExitError`, the
`ErrPermissionDenied` sentinel, `errors.New` errors, and `fmt.Errorf`
wrapping with `%w` (which is what `errors.Is` / `errors.As` traverse). -/

inductive GoError where
  /-- `exitcodes.FailedCheckError` -/
  | failedCheckError (msg : String)
  /-- `exitcodes.OutdatedError` -/
  | outdatedError (msg : String)
  /-- `exitcodes.BadInputError` (the repository always passes a nil cause) -/
  | badInputError (msg : String)
  /-- `exec.ExitError` carrying the subprocess exit code -/
  | exitError (code : Int)
  /-- the `ErrPermissionDenied` sentinel of tlproc/install.go -/
  | errPermissionDenied
  /-- `errors.New` / `fmt.Errorf` without a `%w` verb -/
  | simple (msg : String)
  /-- `fmt.Errorf` with a `%w` verb: wraps an inner error -/
  | wrap (msg : String) (inner : GoError)
deriving DecidableEq, Repr

namespace GoError

/-- `errors.As(err, ...)` for a target error type identified by the
predicate `isTarget`: the chain of `Unwrap`s is searched for a value of
the target type.  Only `wrap` values unwrap to something. -/
def goAs (isTarget : GoError → Bool) : GoError → Bool
  | wrap msg inner => isTarget (wrap msg inner) || goAs isTarget inner
  | e => isTarget e

/-- `errors.Is(err, target)` for a sentinel error value: the unwrap chain
of the first argument is searched for a value equal to the target. -/
def goIs : GoError → GoError → Bool
  | wrap msg inner, target => (wrap msg inner == target) || goIs inner target
  | e, target => e == target

def isFailedCheckError : GoError → Bool
  | failedCheckError _ => true
  | _ => false

def isOutdatedError : GoError → Bool
  | outdatedError _ => true
  | _ => false

def isBadInputError : GoError → Bool
  | badInputError _ => true
  | _ => false

def isExitError : GoError → Bool
  | exitError _ => true
  | _ => false

/-- `errors.As(err, &exitErr)` followed by `exitErr.ExitCode()`: the exit
code of the first `exec.ExitError` in the unwrap chain, if any. -/
def exitCode? : GoError → Option Int
  | exitError code => some code
  | wrap _ inner => exitCode? inner
  | _ => none

end GoError

/-! ## internal/exitcodes (final variant)

The shared exit-code taxonomy.  The flag package exits 2 on parsing
errors, so the package pins `BadInput = 2`. -/

namespace exitcodes

def UnexpectedFailure : Int := 1
def BadInput : Int := 2
def FailedCheck : Int := 3
def Outdated : Int := 4

/-- `exitcodes.ExitWith`: prints the error and exits with the code chosen
by searching the unwrap chain for the typed errors, in the source's case
order.  We model the resulting process exit code. -/
def ExitWith (err : GoError) : Int :=
  if err.goAs GoError.isFailedCheckError then FailedCheck
  else if err.goAs GoError.isOutdatedError then Outdated
  else if err.goAs GoError.isBadInputError then BadInput
  else UnexpectedFailure

/-- `exitcodes.ErrorFromCode`: creates an error of the appropriate type
from an observed exit code. -/
def ErrorFromCode (code : Int) (msg : String) : GoError :=
  if code = FailedCheck then .failedCheckError msg
  else if code = BadInput then .badInputError msg
  else if code = Outdated then .outdatedError msg
  else .simple msg

end exitcodes

end Tlfl

namespace Tlfl

/-- C8 helper: the set of codes in the taxonomy that `ErrorFromCode` maps
to a typed error. -/
def taxonomyCodes : List Int := [exitcodes.FailedCheck, exitcodes.BadInput, exitcodes.Outdated]

/-! ## tlproc/install.go (final `InstallOptions` variant)

The install coordinator.  `tlconfig` runs are modelled by their observable
result: the combined stdout/stderr output and the returned Go error (none
on exit status zero).  The results of the three child-process runs (first
check, elevated apply, re-check) are inputs to the model. -/

/-- Result of `CombinedOutput()` on a `tlconfig` invocation. -/
structure RunResult where
  output : String
  err : Option GoError
deriving DecidableEq, Repr

/-- `lastLine` (install.go): trim the output and keep the last line. -/
def lastLine (b : String) : String :=
  ((b.trim).splitOn "\n").getLast?.getD ""

/-- The exit code seen by `errors.As(err, &exitErr)` plus
`exitErr.ExitCode()` on a run result: none when the run succeeded or when
the error chain holds no `exec.ExitError`. -/
def RunResult.exitCode? (r : RunResult) : Option Int :=
  match r.err with
  | some e => e.exitCode?
  | none => none

/-- The three ways the first check phase of `Install` can continue. -/
inductive CheckDecision where
  | proceedToElevation
  | returnNil
  | returnError (e : GoError)
deriving DecidableEq, Repr

/-- First check-mode run dispatch of `Install` (install.go, the
`tlconfig.run("-test")` switch): `failedCheck`/`outdated` are derived from
the exit code found in the error chain; the first matching switch case
wins.  The final `match` is the switch's default case, in which the error
is necessarily present (the second case already caught `err == nil`). -/
def installFirstCheck (overwrite : Bool) (r : RunResult) : CheckDecision :=
  let outdated := r.exitCode? == some exitcodes.Outdated
  let failedCheck := r.exitCode? == some exitcodes.FailedCheck
  if failedCheck || (outdated && overwrite) then
    .proceedToElevation
  else if r.err.isNone || (outdated && !overwrite) then
    .returnNil
  else
    match r.err with
    | some e =>
        .returnError (.wrap "failed to run tlconfig -test"
          (if r.output.length > 0 then .wrap (lastLine r.output) e else e))
    | none => .returnNil

/-- `isPermissionError` (install.go): on darwin, any `exec.ExitError`
reported by the elevate command is taken to mean the user declined the
prompt; on other platforms the error cannot be decoded. -/
def isPermissionError (goos : String) (elevateErr : GoError) : Bool :=
  if goos != "darwin" then false
  else elevateErr.goAs GoError.isExitError

/-- `tlconfigExec.run` (install.go): `r` is the result of the underlying
command execution (through the elevation collaborator when `prompt` is
non-empty, directly otherwise).  With a prompt, an error recognized by
`isPermissionError` is replaced by the `ErrPermissionDenied` sentinel. -/
def tlconfigRun (goos prompt : String) (r : RunResult) : RunResult :=
  if prompt != "" then
    match r.err with
    | some e =>
        if isPermissionError goos e then { r with err := some .errPermissionDenied } else r
    | none => r
  else r

/-- The elevated apply step of `Install` (install.go): on a run error,
return the wrapped install error (prefixing the last output line when the
output is non-empty); on success return none and fall through. -/
def installElevatedStep (r : RunResult) : Option GoError :=
  match r.err with
  | none => none
  | some e =>
      some (.wrap "failed to run tlconfig"
        (if r.output.length > 0 then .wrap (lastLine r.output) e else e))

/-- Post-install re-check of `Install` (install.go, the second
`tlconfig.run("-test")` switch): `FailedCheck`, or `Outdated` with the
overwrite option, is an unexpected configuration failure even though the
elevated run reported none; any other error of the re-run is an
unexpected failure of the post-install check; otherwise success (none). -/
def installPostCheck (overwrite : Bool) (r : RunResult) : Option GoError :=
  let outdated := r.exitCode? == some exitcodes.Outdated
  let failedCheck := r.exitCode? == some exitcodes.FailedCheck
  if failedCheck || (outdated && overwrite) then
    some (.simple (if r.output.length > 0 then
      "unexpected configuration failure: " ++ lastLine r.output
      else "unexpected configuration failure"))
  else if r.err.isSome then
    some (.simple (if r.output.length > 0 then
      "unexpected failure running post-install check: " ++ lastLine r.output
      else "unexpected failure running post-install check"))
  else
    none

/-- The tail of `Install` once the first check decided to proceed: the
elevated apply run, then the re-check. -/
def installAfterProceed (overwrite : Bool) (elevated recheck : RunResult) : Option GoError :=
  match installElevatedStep elevated with
  | some e => some e
  | none => installPostCheck overwrite recheck

/-- `Install` from the first check-mode run onward (install.go): `check`
is the result of the first `-test` run, `rawElevated` the result the
elevation collaborator reports for the apply run, `recheck` the result of
the final `-test` run.  Returns the error `Install` returns (none on
success). -/
def installModel (goos prompt : String) (overwrite : Bool)
    (check rawElevated recheck : RunResult) : Option GoError :=
  match installFirstCheck overwrite check with
  | .returnNil => none
  | .returnError e => some e
  | .proceedToElevation =>
      installAfterProceed overwrite (tlconfigRun goos prompt rawElevated) recheck

end Tlfl

namespace Tlfl

/-! ## tlproc/tlproc.go (final mutex-based variant)

The process supervisor.  Channels are modelled by their buffered contents
plus a closed flag; the `closed` signal channel by a closed flag alone.
`Close`, `sendError` and `sendStats` all run under the single mutex
`closedMx`, so each is modelled as one atomic transition on the state. -/

/-- `channelBufferSize`: capacity of the public errors/stats channels. -/
def channelBufferSize : Nat := 10

/-- Modelled from the spec: `CaptureStatsEvent` is a "periodic structured
snapshot of capture activity" owned by the external trafficlog
collaborator, "treated here as an opaque value that must round-trip
through a textual encoding without loss".  We model it as a record of two
packet counters carrying the external package's JSON field names. -/
structure CaptureStats where
  received : Nat
  dropped : Nat
deriving DecidableEq, Repr

/-- The state of a `TrafficLogProcess`: the closed-flags of the `closed`
signal channel and of the two public channels, the buffered contents of
those channels, and whether the OS process has been killed. -/
structure TrafficLogProcess where
  closedClosed : Bool
  errCClosed : Bool
  statsCClosed : Bool
  errQ : List GoError
  statsQ : List CaptureStats
  procKilled : Bool
deriving DecidableEq, Repr

/-- The state assembled by a successful `New`: all channels open and
empty, the subprocess alive. -/
def initialProcess : TrafficLogProcess :=
  { closedClosed := false, errCClosed := false, statsCClosed := false,
    errQ := [], statsQ := [], procKilled := false }

inductive CloseResult where
  | returned (err : Option GoError)
  | panicked
deriving DecidableEq, Repr

/-- `TrafficLogProcess.Close` (tlproc.go, final variant).  Under the
mutex, `select { case <-p.closed: ... default: return nil }`: the receive
case is ready only when the `closed` channel is already closed, in which
case the body's `close(p.closed)` closes an already-closed channel and
panics in Go before reaching the other closes and the kill; otherwise the
default branch returns nil without touching anything. -/
def TrafficLogProcess.Close (p : TrafficLogProcess) : CloseResult × TrafficLogProcess :=
  if p.closedClosed then
    (.panicked, p)
  else
    (.returned none, p)

/-- `sendError` (tlproc.go): under the mutex, discard the event if the
supervisor is closed, otherwise perform a non-blocking send on `errC`,
dropping the event when the buffer is full. -/
def TrafficLogProcess.sendError (p : TrafficLogProcess) (err : GoError) : TrafficLogProcess :=
  if p.closedClosed then p
  else if p.errQ.length < channelBufferSize then { p with errQ := p.errQ ++ [err] }
  else p

/-- `sendStats` (tlproc.go): same shape as `sendError`, on `statsC`. -/
def TrafficLogProcess.sendStats (p : TrafficLogProcess) (stats : CaptureStats) : TrafficLogProcess :=
  if p.closedClosed then p
  else if p.statsQ.length < channelBufferSize then { p with statsQ := p.statsQ ++ [stats] }
  else p

/-- `math.MaxInt64`: `time.Duration` is an int64 count of nanoseconds. -/
def maxInt64 : Int := 9223372036854775807

/-- `Options` of tlproc.go, restricted to the timeout fields the start
sequence reads (durations in nanoseconds). -/
structure Options where
  StartTimeout : Int
  RequestTimeout : Int
deriving DecidableEq, Repr

/-- `Options.startTimeout` (tlproc.go): an unset `StartTimeout` means
`math.MaxInt64` nanoseconds, i.e. effectively no timeout. -/
def Options.startTimeout (opts : Options) : Int :=
  if opts.StartTimeout = 0 then maxInt64 else opts.StartTimeout

/-- The zero `Options` value substituted by `New` when called with nil
options. -/
def defaultOptions : Options := { StartTimeout := 0, RequestTimeout := 0 }

inductive StartOutcome where
  | errored
  | timedOut
  | ready
deriving DecidableEq, Repr

/-- The single wait point of `New` (tlproc.go): the select races an error
on `errC`, the `time.After(opts.startTimeout())` timer, and the `serverUp`
signal.  `errAt`/`readyAt` give the times (nanoseconds after the select
starts) at which the first error arrives and readiness fires, none
meaning never; the earliest ready case wins, an event beating the timer on
a tie (Go would pick randomly; only the not-timed-out direction of the
model is used). -/
def newStartSelect (errAt readyAt : Option Int) (timeout : Int) : StartOutcome :=
  match errAt, readyAt with
  | some te, some tr =>
      if te ≤ tr then (if te ≤ timeout then .errored else .timedOut)
      else (if tr ≤ timeout then .ready else .timedOut)
  | some te, none => if te ≤ timeout then .errored else .timedOut
  | none, some tr => if tr ≤ timeout then .ready else .timedOut
  | none, none => .timedOut

end Tlfl

namespace Tlfl

/-! ## The stderr line protocol (tlproc/tlproc.go and
internal/cmd/tlserver/main.go)

The parent passes the fixed prefixes `"error: "` and `"stats: "` to the
tlserver subprocess, whose event loop writes either
`fmt.Fprintf(os.Stderr, "%s%v\n", *errorPrefix, err)` or
`fmt.Fprintf(os.Stderr, "%s%s\n", *statsPrefix, string(json.Marshal(stats)))`;
the parent's `watchStderr` scans the stream line by line and
demultiplexes.  Lines are `List Char`; `encoding/json` on the flat
two-counter stats object is modelled character by character. -/

/-- `errorPrefix = "error: "` (tlproc.go). -/
def errorPrefixChars : List Char := ['e', 'r', 'r', 'o', 'r', ':', ' ']

/-- `statsPrefix = "stats: "` (tlproc.go). -/
def statsPrefixChars : List Char := ['s', 't', 'a', 't', 's', ':', ' ']

/-- The double-quote character of the JSON encoding. -/
def quoteC : Char := Char.ofNat 34

/-- The opening-brace character of the JSON encoding. -/
def lbraceC : Char := Char.ofNat 123

/-- The closing-brace character of the JSON encoding. -/
def rbraceC : Char := Char.ofNat 125

/-- The JSON field name of the received-packets counter. -/
def receivedKey : List Char := ['R', 'e', 'c', 'e', 'i', 'v', 'e', 'd']

/-- The JSON field name of the dropped-packets counter. -/
def droppedKey : List Char := ['D', 'r', 'o', 'p', 'p', 'e', 'd']

/-- Base-10 digit characters of a natural number, most significant first:
the integer formatting `encoding/json` uses for the counters. -/
def natToDecimal (n : Nat) : List Char :=
  if n = 0 then ['0'] else ((Nat.digits 10 n).reverse.map Nat.digitChar)

/-- `json.Marshal` of a CaptureStats value: the fields in struct order,
no whitespace. -/
def jsonMarshalStats (s : CaptureStats) : List Char :=
  [lbraceC, quoteC] ++ receivedKey ++ [quoteC, ':'] ++ natToDecimal s.received ++
    [',', quoteC] ++ droppedKey ++ [quoteC, ':'] ++ natToDecimal s.dropped ++ [rbraceC]

/-- JSON insignificant whitespace. -/
def isWsChar (c : Char) : Bool := c == ' ' || c == '\t' || c == '\n' || c == '\r'

def skipWs (cs : List Char) : List Char := cs.dropWhile isWsChar

/-- A base-10 digit character. -/
def isDigitChar (c : Char) : Bool := decide (48 ≤ c.toNat ∧ c.toNat ≤ 57)

/-- Parse a run of decimal digits (the only JSON value type the stats
object carries). -/
def parseNumber (cs : List Char) : Option (Nat × List Char) :=
  let ds := cs.takeWhile isDigitChar
  if ds.isEmpty then none
  else some (ds.foldl (fun n c => 10 * n + (c.toNat - 48)) 0, cs.dropWhile isDigitChar)

/-- Parse a JSON string key (the field names of this protocol contain no
escape sequences). -/
def parseKey (cs : List Char) : Option (List Char × List Char) :=
  match cs with
  | [] => none
  | c :: rest =>
      if c = quoteC then
        match rest.dropWhile (fun d => !(d == quoteC)) with
        | [] => none
        | _ :: rest2 => some (rest.takeWhile (fun d => !(d == quoteC)), rest2)
      else none

/-- `json.Unmarshal` field assignment: known keys set their counter,
unknown keys are ignored, later duplicates win. -/
def assignField (acc : CaptureStats) (key : List Char) (v : Nat) : CaptureStats :=
  if key = receivedKey then { acc with received := v }
  else if key = droppedKey then { acc with dropped := v }
  else acc

/-- Parse the `"key":number` fields of the object up to the closing brace
and the end of the input.  `fuel` bounds the recursion; it is initialized
to one more than the remaining input length, which a parse can never
exhaust since every field consumes at least one character. -/
def parseFields (fuel : Nat) (acc : CaptureStats) (cs : List Char) : Option CaptureStats :=
  match fuel, cs with
  | 0, _ => none
  | _ + 1, [] => none
  | fuel + 1, c :: rest =>
      if c = rbraceC then
        if (skipWs rest).isEmpty then some acc else none
      else
        match parseKey (c :: rest) with
        | none => none
        | some (key, afterKey) =>
            match skipWs afterKey with
            | [] => none
            | c2 :: afterColon =>
                if c2 = ':' then
                  match parseNumber (skipWs afterColon) with
                  | none => none
                  | some (v, afterNum) =>
                      match skipWs afterNum with
                      | [] => none
                      | c3 :: rest3 =>
                          if c3 = ',' then
                            parseFields fuel (assignField acc key v) (skipWs rest3)
                          else if c3 = rbraceC then
                            if (skipWs rest3).isEmpty then some (assignField acc key v)
                            else none
                          else none
                else none

/-- `json.Unmarshal` into a fresh (zero-valued) CaptureStats, modelled for
the flat object layout of this protocol: an object of `"key": number`
fields with optional insignificant whitespace; unknown numeric fields are
ignored, absent fields keep the zero value.  (JSON features the protocol
never produces — nested values, strings, escapes, the Go decoder's
case-insensitive key folding — are modelled as decode failures.) -/
def jsonUnmarshalStats (cs : List Char) : Option CaptureStats :=
  match skipWs cs with
  | [] => none
  | c :: rest =>
      if c = lbraceC then parseFields (rest.length + 1) { received := 0, dropped := 0 } (skipWs rest)
      else none

/-- An event produced by the watch thread from one stderr line. -/
inductive StderrEvent where
  | errorEvent (msg : List Char)
  | statsEvent (stats : CaptureStats)
deriving DecidableEq, Repr

/-- The message of the `fmt.Errorf("failed to unmarshal stats: %w", err)`
event (the wrapped json error text is not modelled). -/
def unmarshalFailureMsg : List Char :=
  ['f', 'a', 'i', 'l', 'e', 'd', ' ', 't', 'o', ' ', 'u', 'n', 'm', 'a', 'r', 's',
   'h', 'a', 'l', ' ', 's', 't', 'a', 't', 's']

/-- One iteration of the `watchStderr` scan loop, on one line (without
its terminator): the error-prefix case, the stats-prefix case with JSON
decoding (decode failure becomes an error event, not a crash), and the
ignored default case. -/
def watchLine (line : List Char) : Option StderrEvent :=
  if errorPrefixChars.isPrefixOf line then
    some (.errorEvent (line.drop errorPrefixChars.length))
  else if statsPrefixChars.isPrefixOf line then
    match jsonUnmarshalStats (line.drop statsPrefixChars.length) with
    | some stats => some (.statsEvent stats)
    | none => some (.errorEvent unmarshalFailureMsg)
  else
    none

/-- `bufio.Scanner` with its default line split: the input cut at newline
characters, terminators dropped, no empty final token after a trailing
newline.  (The protocol lines carry no carriage returns, so ScanLines'
CR-stripping is omitted.) -/
def scanLines : List Char → List (List Char)
  | [] => []
  | c :: rest =>
      if c = '\n' then [] :: scanLines rest
      else
        match scanLines rest with
        | [] => [[c]]
        | l :: ls => (c :: l) :: ls

/-- The events `watchStderr` derives from a stderr byte stream, in
order. -/
def watchStderrEvents (input : List Char) : List StderrEvent :=
  (scanLines input).filterMap watchLine

/-- Delivery of one event to its output channel. -/
def deliverEvent (p : TrafficLogProcess) : StderrEvent → TrafficLogProcess
  | .errorEvent msg => p.sendError (.simple (String.mk msg))
  | .statsEvent stats => p.sendStats stats

/-- `watchStderr` (tlproc.go): scan the stream line by line, classify
each line, and deliver the resulting events in order. -/
def watchStderr (p : TrafficLogProcess) (input : List Char) : TrafficLogProcess :=
  (watchStderrEvents input).foldl deliverEvent p

/-- The stats line tlserver's event loop writes to stderr:
`fmt.Fprintf(os.Stderr, "%s%s\n", *statsPrefix, string(b))` with
`b = json.Marshal(stats)` and the prefix flag set to `"stats: "` by the
parent. -/
def serverStatsLine (s : CaptureStats) : List Char :=
  statsPrefixChars ++ jsonMarshalStats s ++ ['\n']

end Tlfl

namespace Tlfl

/-! ## internal/cmd/config-bpf (final `-test`-flag variant)

The device configurator, modelled as an interpreter that records every
mutating operating-system call in a trace.  The results of the external
calls (group lookup, the two `/dev` walks, sysctl, per-device stats and
mutation outcomes) are supplied by an environment record, in program
order. -/

/-- A mutating operating-system call made by config-bpf. -/
inductive OSEffect where
  /-- `os.Create`: create or truncate a log file -/
  | createFile (path : String)
  /-- `os.Chown(dev, -1, gid)` on device `/dev/bpf<idx>` -/
  | chown (idx : Nat) (gid : Int)
  /-- `os.Chmod(dev, mode)` on device `/dev/bpf<idx>` -/
  | chmod (idx : Nat) (mode : Nat)
  /-- the zero-byte read of `/dev/bpf<idx>` that triggers lazy creation
  of the next device -/
  | triggerRead (idx : Nat)
deriving DecidableEq, Repr

/-- One `/dev/bpf<idx>` device as the second walk finds it: whether its
re-stat succeeds, its owning GID, its permission bits, and whether a
chown/chmod of it would succeed. -/
structure BPFDevice where
  idx : Nat
  statOk : Bool
  gid : Int
  mode : Nat
  chownOk : Bool
  chmodOk : Bool
deriving DecidableEq, Repr

/-- Results of config-bpf's external system calls, in program order. -/
structure ConfigBPFEnv where
  /-- the `-test` flag -/
  testMode : Bool
  /-- the `-stdout` flag (empty = not provided) -/
  stdoutFile : String
  /-- the `-stderr` flag (empty = not provided) -/
  stderrFile : String
  /-- `user.LookupGroup("access_bpf")` followed by `strconv.Atoi(g.Gid)`:
  the GID, or the text of the first failing step -/
  lookupGroup : Except String Int
  /-- first `filepath.Walk("/dev")`: highest matching device index
  (0 when none match), or a walk error -/
  walkHighest : Except String Nat
  /-- `sysctl -n debug.bpf_maxdevices` plus `strconv.Atoi` -/
  sysctlMax : Except String Nat
  /-- whether `triggerNextBPFDevice i` succeeds -/
  triggerOk : Nat → Bool
  /-- second `filepath.Walk("/dev")`: the matching devices in walk order -/
  walkDevices : Except String (List BPFDevice)

/-- `maxCreatedDevices`: ceiling on the number of devices created. -/
def maxCreatedDevices : Nat := 256

/-- `getMaxBPFDevices`: the sysctl value clamped to the ceiling. -/
def getMaxBPFDevices (sysctl : Except String Nat) : Except String Nat :=
  match sysctl with
  | .error e => .error e
  | .ok systemMax =>
      if systemMax < maxCreatedDevices then .ok systemMax else .ok maxCreatedDevices

/-- The group-read permission bit (`0b100000`). -/
def groupReadBit : Nat := 32

/-- How the modelled process run ends. -/
inductive Outcome where
  | exited (code : Int)
  | completed
deriving DecidableEq, Repr

/-- The device pre-creation loop
(`for i := startDevice; i < endDevice-1; i++`), run in apply mode only:
each iteration is the triggering read of device `i`; the loop stops
silently at the first failure. -/
def triggerLoop (ok : Nat → Bool) : List Nat → List OSEffect
  | [] => []
  | i :: rest => if ok i then .triggerRead i :: triggerLoop ok rest else [.triggerRead i]

/-- The per-device loop of `main`: re-stat; reassign the owning group if
it is not the BPF group (in check mode, exit `FailedCheck` instead); add
group-read if missing (in check mode, exit `FailedCheck` instead).  Any
stat/chown/chmod failure is an unexpected fatal error.  Returns the
outcome together with the mutating effects performed before it. -/
def deviceLoop (testMode : Bool) (bpfGID : Int) : List BPFDevice → Outcome × List OSEffect
  | [] => (.completed, [])
  | d :: rest =>
      if d.statOk = false then
        (.exited (exitcodes.ExitWith (.wrap "failed to stat device" (.simple "stat error"))), [])
      else if d.gid ≠ bpfGID ∧ testMode = true then
        (.exited (exitcodes.ExitWith (.failedCheckError "device not owned by access_bpf")), [])
      else if d.gid ≠ bpfGID ∧ d.chownOk = false then
        (.exited (exitcodes.ExitWith (.wrap "failed to assign device to access_bpf"
          (.simple "chown error"))), [])
      else
        let e1 : List OSEffect := if d.gid ≠ bpfGID then [.chown d.idx bpfGID] else []
        if d.mode &&& groupReadBit ≠ groupReadBit ∧ testMode = true then
          (.exited (exitcodes.ExitWith (.failedCheckError "device does not have group read")), e1)
        else if d.mode &&& groupReadBit ≠ groupReadBit ∧ d.chmodOk = false then
          (.exited (exitcodes.ExitWith (.wrap "failed to assign group read"
            (.simple "chmod error"))), e1)
        else
          let e2 : List OSEffect :=
            if d.mode &&& groupReadBit ≠ groupReadBit then
              [.chmod d.idx (d.mode ||| groupReadBit)]
            else []
          let res := deviceLoop testMode bpfGID rest
          (res.1, e1 ++ e2 ++ res.2)

/-- The log-file truncations `main` performs up front, in either mode,
when the `-stderr` / `-stdout` flags are provided. -/
def logTruncationEffects (env : ConfigBPFEnv) : List OSEffect :=
  (if env.stderrFile ≠ "" then [.createFile env.stderrFile] else []) ++
    (if env.stdoutFile ≠ "" then [.createFile env.stdoutFile] else [])

/-- `main` of config-bpf: truncate the provided log files, resolve the
BPF group, find the highest existing device, clamp the system maximum,
pre-create devices (apply mode only), re-walk the devices (zero devices
is fatal), and run the per-device configuration loop. -/
def configBPFMain (env : ConfigBPFEnv) : Outcome × List OSEffect :=
  let logEffects := logTruncationEffects env
  match env.lookupGroup with
  | .error msg =>
      (.exited (exitcodes.ExitWith (.wrap "failed to look up access_bpf" (.simple msg))),
        logEffects)
  | .ok bpfGID =>
      match env.walkHighest with
      | .error msg =>
          (.exited (exitcodes.ExitWith (.wrap "failed to walk /dev" (.simple msg))), logEffects)
      | .ok startDevice =>
          match getMaxBPFDevices env.sysctlMax with
          | .error msg =>
              (.exited (exitcodes.ExitWith (.wrap "unable to determine max BPF devices"
                (.simple msg))), logEffects)
          | .ok endDevice =>
              let trigEffects : List OSEffect :=
                if env.testMode = true then []
                else triggerLoop env.triggerOk
                  (List.range' startDevice (endDevice - 1 - startDevice))
              match env.walkDevices with
              | .error msg =>
                  (.exited (exitcodes.ExitWith (.wrap "failed to walk /dev" (.simple msg))),
                    logEffects ++ trigEffects)
              | .ok devs =>
                  if devs.length = 0 then
                    (.exited (exitcodes.ExitWith (.simple "found no BPF devices")),
                      logEffects ++ trigEffects)
                  else
                    let res := deviceLoop env.testMode bpfGID devs
                    (res.1, logEffects ++ trigEffects ++ res.2)

/-- A check-mode environment with a `-stderr` log file configured and a
perfectly healthy, fully configured system. -/
def checkModeLogEnv : ConfigBPFEnv :=
  { testMode := true, stdoutFile := "", stderrFile := "/var/log/config-bpf.err",
    lookupGroup := .ok 20, walkHighest := .ok 3, sysctlMax := .ok 256,
    triggerOk := fun _ => true,
    walkDevices := .ok [⟨0, true, 20, 32, true, true⟩] }

/-- A check-mode environment with no log files configured and one
misconfigured device (wrong owning group). -/
def checkModeMisconfigEnv : ConfigBPFEnv :=
  { testMode := true, stdoutFile := "", stderrFile := "",
    lookupGroup := .ok 20, walkHighest := .ok 0, sysctlMax := .ok 4,
    triggerOk := fun _ => true,
    walkDevices := .ok [⟨0, true, 0, 0, true, true⟩] }

end Tlfl

namespace Tlfl

/-- **C8** For every code in {FailedCheck, BadInput, Outdated} and every
message, `ExitWith (ErrorFromCode code msg)` exits with exactly that code;
for any code outside the taxonomy, `ErrorFromCode` yields an error that
`ExitWith` maps to `UnexpectedFailure`. -/
theorem errorFromCode_exitWith_roundtrip (code : Int) (msg : String) :
    exitcodes.ExitWith (exitcodes.ErrorFromCode code msg) =
      if code ∈ taxonomyCodes then code else exitcodes.UnexpectedFailure := by
  unfold exitcodes.ErrorFromCode exitcodes.ExitWith taxonomyCodes
  by_cases h3 : code = exitcodes.FailedCheck
  · simp [h3, GoError.goAs, GoError.isFailedCheckError]
  · by_cases h2 : code = exitcodes.BadInput
    · simp [h2, h3, GoError.goAs, GoError.isFailedCheckError, GoError.isOutdatedError,
        GoError.isBadInputError, exitcodes.FailedCheck, exitcodes.BadInput]
    · by_cases h4 : code = exitcodes.Outdated
      · simp [h2, h3, h4, GoError.goAs, GoError.isFailedCheckError, GoError.isOutdatedError,
          exitcodes.FailedCheck, exitcodes.BadInput, exitcodes.Outdated]
      · simp [h2, h3, h4, GoError.goAs, GoError.isFailedCheckError, GoError.isOutdatedError,
          GoError.isBadInputError]

/-- **C2** After the first check-mode run of tlconfig, `Install` branches
exactly as follows: exit status zero, return nil without elevation; exit
code FailedCheck, or Outdated with the Overwrite option, proceed to the
elevated apply run; Outdated with Overwrite disabled, return nil; any
other failure of the check run, return an error. -/
theorem install_first_check_branches (overwrite : Bool) (r : RunResult) :
    (r.err = none → installFirstCheck overwrite r = .returnNil) ∧
    (r.exitCode? = some exitcodes.FailedCheck →
      installFirstCheck overwrite r = .proceedToElevation) ∧
    (r.exitCode? = some exitcodes.Outdated → overwrite = true →
      installFirstCheck overwrite r = .proceedToElevation) ∧
    (r.exitCode? = some exitcodes.Outdated → overwrite = false →
      installFirstCheck overwrite r = .returnNil) ∧
    (∀ e, r.err = some e → r.exitCode? ≠ some exitcodes.FailedCheck →
      r.exitCode? ≠ some exitcodes.Outdated →
      ∃ ge, installFirstCheck overwrite r = .returnError ge) := by
  refine ⟨?_, ?_, ?_, ?_, ?_⟩
  · intro h
    simp [installFirstCheck, RunResult.exitCode?, h]
  · intro h
    simp [installFirstCheck, h, exitcodes.FailedCheck]
  · intro h hov
    simp [installFirstCheck, h, hov, exitcodes.Outdated, exitcodes.FailedCheck]
  · intro h hov
    simp [installFirstCheck, h, hov, exitcodes.Outdated, exitcodes.FailedCheck]
  · intro e he hfc hod
    refine ⟨.wrap "failed to run tlconfig -test"
      (if r.output.length > 0 then .wrap (lastLine r.output) e else e), ?_⟩
    simp only [installFirstCheck]
    rw [if_neg, if_neg]
    · simp [he]
    · simp [he, beq_iff_eq, hod]
    · simp [beq_iff_eq, hfc, hod]

/-- **C2 witness**: the five branches at concrete run results. -/
theorem install_first_check_branches_witness :
    installFirstCheck true ⟨"", none⟩ = .returnNil ∧
    installFirstCheck false ⟨"", some (.exitError 3)⟩ = .proceedToElevation ∧
    installFirstCheck true ⟨"", some (.exitError 4)⟩ = .proceedToElevation ∧
    installFirstCheck false ⟨"", some (.exitError 4)⟩ = .returnNil ∧
    ∃ ge, installFirstCheck true ⟨"boom", some (.simple "boom")⟩ = .returnError ge := by
  refine ⟨?_, ?_, ?_, ?_, ?_⟩
  · exact (install_first_check_branches true ⟨"", none⟩).1 rfl
  · exact (install_first_check_branches false ⟨"", some (.exitError 3)⟩).2.1 rfl
  · exact (install_first_check_branches true ⟨"", some (.exitError 4)⟩).2.2.1 rfl rfl
  · exact (install_first_check_branches false ⟨"", some (.exitError 4)⟩).2.2.2.1 rfl rfl
  · exact (install_first_check_branches true ⟨"boom", some (.simple "boom")⟩).2.2.2.2
      (.simple "boom") rfl (by decide) (by decide)

/-- **C3** If the elevated apply run completes without error but the
re-check exits FailedCheck, or Outdated while Overwrite is enabled, then
`Install` returns an error rather than success. -/
theorem install_postcheck_catches_hidden_failure (overwrite : Bool)
    (elevated recheck : RunResult) (helev : elevated.err = none)
    (hcode : recheck.exitCode? = some exitcodes.FailedCheck ∨
      (recheck.exitCode? = some exitcodes.Outdated ∧ overwrite = true)) :
    ∃ ge, installAfterProceed overwrite elevated recheck = some ge := by
  refine ⟨.simple (if recheck.output.length > 0 then
      "unexpected configuration failure: " ++ lastLine recheck.output
      else "unexpected configuration failure"), ?_⟩
  simp only [installAfterProceed, installElevatedStep, helev]
  rcases hcode with h | ⟨h, hov⟩
  · simp [installPostCheck, h, exitcodes.FailedCheck]
  · simp [installPostCheck, h, hov, exitcodes.Outdated, exitcodes.FailedCheck]

/-- **C3 witness**: a clean elevated run followed by a FailedCheck
re-check, and by an Outdated re-check with overwrite on. -/
theorem install_postcheck_catches_hidden_failure_witness :
    (∃ ge, installAfterProceed false ⟨"", none⟩ ⟨"", some (.exitError 3)⟩ = some ge) ∧
    (∃ ge, installAfterProceed true ⟨"", none⟩ ⟨"", some (.exitError 4)⟩ = some ge) := by
  constructor
  · exact install_postcheck_catches_hidden_failure false ⟨"", none⟩ ⟨"", some (.exitError 3)⟩
      rfl (Or.inl rfl)
  · exact install_postcheck_catches_hidden_failure true ⟨"", none⟩ ⟨"", some (.exitError 4)⟩
      rfl (Or.inr ⟨rfl, rfl⟩)

/-- **C4** When `Install` runs the elevated tlconfig command (prompt
non-empty) and the elevation layer reports what is recognized as the user
declining (on darwin, an `exec.ExitError` from the elevate command), the
error `Install` returns wraps the `ErrPermissionDenied` sentinel. -/
theorem install_elevation_denied_wraps_sentinel (prompt : String) (raw : RunResult)
    (overwrite : Bool) (recheck : RunResult)
    (hprompt : prompt ≠ "") (e : GoError) (herr : raw.err = some e)
    (hexit : e.goAs GoError.isExitError = true) :
    ∃ ge, installAfterProceed overwrite (tlconfigRun "darwin" prompt raw) recheck = some ge ∧
      ge.goIs GoError.errPermissionDenied = true := by
  have hrun : tlconfigRun "darwin" prompt raw = { raw with err := some .errPermissionDenied } := by
    simp [tlconfigRun, hprompt, herr, isPermissionError, hexit]
  rw [hrun]
  refine ⟨.wrap "failed to run tlconfig"
    (if raw.output.length > 0 then
      .wrap (lastLine raw.output) .errPermissionDenied else .errPermissionDenied), ?_, ?_⟩
  · simp [installAfterProceed, installElevatedStep]
  · by_cases hout : raw.output.length > 0
    · simp [GoError.goIs, hout]
    · simp [GoError.goIs, hout]

/-- **C4 witness**: a declined elevation prompt at a concrete input. -/
theorem install_elevation_denied_wraps_sentinel_witness :
    ∃ ge, installAfterProceed true (tlconfigRun "darwin" "please allow" ⟨"out", some (.exitError 1)⟩)
        ⟨"", none⟩ = some ge ∧ ge.goIs GoError.errPermissionDenied = true :=
  install_elevation_denied_wraps_sentinel "please allow" ⟨"out", some (.exitError 1)⟩
    true ⟨"", none⟩ (by decide) (.exitError 1) rfl (by decide)

/-- **C1** (divergence evidence) The first call to `Close` on a freshly
started `TrafficLogProcess` returns nil and has no effect whatsoever: the
subprocess is not killed, and neither the error channel nor the stats
channel is closed; a second call behaves identically.  (The select's
receive from the still-open `closed` channel is not ready, so the default
branch returns nil — and no code path in the package ever closes that
channel.)  This contradicts the claim and the function's own doc comment,
under which the first call kills the process and closes both channels. -/
theorem close_first_call_is_noop :
    TrafficLogProcess.Close initialProcess = (.returned none, initialProcess) ∧
    TrafficLogProcess.Close (TrafficLogProcess.Close initialProcess).2 =
      (.returned none, initialProcess) ∧
    initialProcess.procKilled = false ∧
    initialProcess.errCClosed = false ∧
    initialProcess.statsCClosed = false := by
  decide

/-- **C7** `sendError` and `sendStats` never block: when the supervisor is
closed the event is discarded with no channel interaction, when the
destination buffer (capacity 10) is full the event is dropped, otherwise
it is appended; the closed flag is read in the same atomic (mutex-guarded)
step, and the buffered length never exceeds the capacity. -/
theorem send_nonblocking (p : TrafficLogProcess) (err : GoError) (stats : CaptureStats) :
    (p.closedClosed = true → p.sendError err = p ∧ p.sendStats stats = p) ∧
    (p.closedClosed = false → p.errQ.length < channelBufferSize →
      p.sendError err = { p with errQ := p.errQ ++ [err] }) ∧
    (p.closedClosed = false → ¬ p.errQ.length < channelBufferSize → p.sendError err = p) ∧
    (p.closedClosed = false → p.statsQ.length < channelBufferSize →
      p.sendStats stats = { p with statsQ := p.statsQ ++ [stats] }) ∧
    (p.closedClosed = false → ¬ p.statsQ.length < channelBufferSize → p.sendStats stats = p) ∧
    (p.errQ.length ≤ channelBufferSize → (p.sendError err).errQ.length ≤ channelBufferSize) ∧
    (p.statsQ.length ≤ channelBufferSize →
      (p.sendStats stats).statsQ.length ≤ channelBufferSize) := by
  refine ⟨?_, ?_, ?_, ?_, ?_, ?_, ?_⟩
  · intro h
    simp [TrafficLogProcess.sendError, TrafficLogProcess.sendStats, h]
  · intro h hlen
    simp [TrafficLogProcess.sendError, h, hlen]
  · intro h hlen
    simp [TrafficLogProcess.sendError, h, hlen]
  · intro h hlen
    simp [TrafficLogProcess.sendStats, h, hlen]
  · intro h hlen
    simp [TrafficLogProcess.sendStats, h, hlen]
  · intro hle
    by_cases h : p.closedClosed
    · simp [TrafficLogProcess.sendError, h, hle]
    · by_cases hlen : p.errQ.length < channelBufferSize
      · simp [TrafficLogProcess.sendError, h, hlen]
        omega
      · simp [TrafficLogProcess.sendError, h, hlen, hle]
  · intro hle
    by_cases h : p.closedClosed
    · simp [TrafficLogProcess.sendStats, h, hle]
    · by_cases hlen : p.statsQ.length < channelBufferSize
      · simp [TrafficLogProcess.sendStats, h, hlen]
        omega
      · simp [TrafficLogProcess.sendStats, h, hlen, hle]

/-- **C7 witness**: the discard, append and drop cases at concrete
states. -/
theorem send_nonblocking_witness :
    ({ initialProcess with closedClosed := true }.sendError (.simple "e") =
        { initialProcess with closedClosed := true } ∧
      { initialProcess with closedClosed := true }.sendStats ⟨1, 2⟩ =
        { initialProcess with closedClosed := true }) ∧
    initialProcess.sendError (.simple "e") =
      { initialProcess with errQ := [.simple "e"] } ∧
    { initialProcess with errQ := List.replicate 10 (GoError.simple "x") }.sendError
        (.simple "e") =
      { initialProcess with errQ := List.replicate 10 (GoError.simple "x") } := by
  refine ⟨?_, ?_, ?_⟩
  · exact (send_nonblocking { initialProcess with closedClosed := true }
      (.simple "e") ⟨1, 2⟩).1 rfl
  · simpa using (send_nonblocking initialProcess (.simple "e") ⟨1, 2⟩).2.1 rfl
      (by decide)
  · exact (send_nonblocking { initialProcess with
        errQ := List.replicate 10 (GoError.simple "x") }
      (.simple "e") ⟨1, 2⟩).2.2.1 rfl (by decide)

/-- **C10** A zero `StartTimeout` (including the nil-options default)
makes `startTimeout()` evaluate to `math.MaxInt64` nanoseconds, so the
start select cannot take the timeout branch as long as the error or the
readiness signal fires at any realizable time. -/
theorem startTimeout_zero_effectively_no_timeout (opts : Options)
    (errAt readyAt : Option Int) (t : Int) :
    defaultOptions.startTimeout = maxInt64 ∧
    (opts.StartTimeout = 0 → opts.startTimeout = maxInt64) ∧
    (opts.StartTimeout ≠ 0 → opts.startTimeout = opts.StartTimeout) ∧
    (opts.StartTimeout = 0 → (errAt = some t ∨ readyAt = some t) → t < maxInt64 →
      newStartSelect errAt readyAt opts.startTimeout ≠ .timedOut) := by
  refine ⟨by decide, ?_, ?_, ?_⟩
  · intro h
    simp [Options.startTimeout, h]
  · intro h
    simp [Options.startTimeout, h]
  · intro h harr ht
    have htm : opts.startTimeout = maxInt64 := by simp [Options.startTimeout, h]
    rw [htm]
    rcases harr with he | hr
    · subst he
      cases readyAt with
      | none => simp [newStartSelect]; omega
      | some tr =>
          simp only [newStartSelect]
          by_cases hle : t ≤ tr
          · simp [hle]
            omega
          · have : tr ≤ t := by omega
            simp [hle]
            omega
    · subst hr
      cases errAt with
      | none => simp [newStartSelect]; omega
      | some te =>
          simp only [newStartSelect]
          by_cases hle : te ≤ t
          · simp [hle]
            omega
          · simp [hle]
            omega

/-- **C10 witness**: zero options with readiness firing after one
second. -/
theorem startTimeout_zero_effectively_no_timeout_witness :
    newStartSelect none (some 1000000000) defaultOptions.startTimeout ≠ .timedOut :=
  (startTimeout_zero_effectively_no_timeout defaultOptions none (some 1000000000)
    1000000000).2.2.2 rfl (Or.inr rfl) (by decide)

end Tlfl
namespace Tlfl

/-! ### Helper lemmas for the stderr line protocol -/

theorem takeWhile_append_all {p : Char → Bool} {l r : List Char}
    (h : ∀ c ∈ l, p c = true) : (l ++ r).takeWhile p = l ++ r.takeWhile p := by
  induction l with
  | nil => simp
  | cons c t ih =>
      have hc := h c (by simp)
      simp only [List.cons_append, List.takeWhile_cons, hc, if_true]
      rw [ih (fun d hd => h d (by simp [hd]))]

theorem dropWhile_append_all {p : Char → Bool} {l r : List Char}
    (h : ∀ c ∈ l, p c = true) : (l ++ r).dropWhile p = r.dropWhile p := by
  induction l with
  | nil => simp
  | cons c t ih =>
      have hc := h c (by simp)
      simp only [List.cons_append, List.dropWhile_cons, hc, if_true]
      exact ih (fun d hd => h d (by simp [hd]))

theorem digitChar_toNat {d : Nat} (h : d < 10) : (Nat.digitChar d).toNat = 48 + d := by
  interval_cases d <;> rfl

theorem isDigitChar_digitChar {d : Nat} (h : d < 10) : isDigitChar (Nat.digitChar d) = true := by
  interval_cases d <;> rfl

theorem isDigitChar_all_natToDecimal (n : Nat) :
    ∀ c ∈ natToDecimal n, isDigitChar c = true := by
  intro c hc
  unfold natToDecimal at hc
  by_cases h : n = 0
  · simp [h] at hc
    subst hc
    rfl
  · simp only [h, if_false, List.mem_map, List.mem_reverse] at hc
    obtain ⟨d, hd, rfl⟩ := hc
    exact isDigitChar_digitChar (Nat.digits_lt_base (by norm_num) hd)

theorem natToDecimal_ne_nil (n : Nat) : natToDecimal n ≠ [] := by
  unfold natToDecimal
  by_cases h : n = 0
  · simp [h]
  · simp [h, Nat.digits_ne_nil_iff_ne_zero]

theorem foldl_digitChar_eq (l : List Nat) (h : ∀ d ∈ l, d < 10) (a : Nat) :
    (l.map Nat.digitChar).foldl (fun n c => 10 * n + (c.toNat - 48)) a =
      l.foldl (fun n d => 10 * n + d) a := by
  induction l generalizing a with
  | nil => rfl
  | cons d t ih =>
      simp only [List.map_cons, List.foldl_cons]
      rw [digitChar_toNat (h d (by simp))]
      have he : 10 * a + (48 + d - 48) = 10 * a + d := by omega
      rw [he]
      exact ih (fun x hx => h x (by simp [hx])) _

theorem foldr_base10_eq_ofDigits (l : List Nat) :
    l.foldr (fun d acc => 10 * acc + d) 0 = Nat.ofDigits 10 l := by
  induction l with
  | nil => simp [Nat.ofDigits]
  | cons d t ih =>
      simp only [List.foldr_cons, ih, Nat.ofDigits_cons]
      ring

theorem natToDecimal_foldl (n : Nat) :
    (natToDecimal n).foldl (fun m c => 10 * m + (c.toNat - 48)) 0 = n := by
  unfold natToDecimal
  by_cases h : n = 0
  · simp [h]
  · simp only [h, if_false]
    rw [foldl_digitChar_eq ((Nat.digits 10 n).reverse)
      (fun d hd => Nat.digits_lt_base (by norm_num) (List.mem_reverse.mp hd))]
    rw [List.foldl_reverse]
    rw [foldr_base10_eq_ofDigits]
    exact Nat.ofDigits_digits 10 n

theorem parseNumber_decimal (n : Nat) (r : List Char)
    (hr : ∀ c, r.head? = some c → isDigitChar c = false) :
    parseNumber (natToDecimal n ++ r) = some (n, r) := by
  have htake : r.takeWhile isDigitChar = [] := by
    cases r with
    | nil => rfl
    | cons c t => simp [List.takeWhile_cons, hr c rfl]
  have hdrop : r.dropWhile isDigitChar = r := by
    cases r with
    | nil => rfl
    | cons c t => simp [List.dropWhile_cons, hr c rfl]
  unfold parseNumber
  rw [takeWhile_append_all (isDigitChar_all_natToDecimal n), htake,
      dropWhile_append_all (isDigitChar_all_natToDecimal n), hdrop]
  simp only [List.append_nil]
  rw [if_neg (by simpa [List.isEmpty_iff] using natToDecimal_ne_nil n)]
  rw [natToDecimal_foldl n]

theorem parseKey_exact (key r : List Char) (hk : ∀ c ∈ key, (c == quoteC) = false) :
    parseKey (quoteC :: (key ++ quoteC :: r)) = some (key, r) := by
  have hpred : ∀ c ∈ key, (fun d => !(d == quoteC)) c = true := by
    intro c hc
    simp [hk c hc]
  have hdrop : (key ++ quoteC :: r).dropWhile (fun d => !(d == quoteC)) = quoteC :: r := by
    rw [dropWhile_append_all hpred]
    simp [List.dropWhile_cons]
  have htake : (key ++ quoteC :: r).takeWhile (fun d => !(d == quoteC)) = key := by
    rw [takeWhile_append_all hpred]
    simp [List.takeWhile_cons]
  unfold parseKey
  simp [hdrop, htake]

theorem skipWs_cons_not_ws {c : Char} {r : List Char} (h : isWsChar c = false) :
    skipWs (c :: r) = c :: r := by
  simp [skipWs, List.dropWhile_cons, h]

theorem not_ws_of_digit {c : Char} (h : isDigitChar c = true) : isWsChar c = false := by
  have h' : 48 ≤ c.toNat ∧ c.toNat ≤ 57 := by simpa [isDigitChar] using h
  unfold isWsChar
  have h1 : (c == ' ') = false := by
    rw [beq_eq_false_iff_ne]
    intro e
    subst e
    exact absurd h'.1 (by decide)
  have h2 : (c == '\t') = false := by
    rw [beq_eq_false_iff_ne]
    intro e
    subst e
    exact absurd h'.1 (by decide)
  have h3 : (c == '\n') = false := by
    rw [beq_eq_false_iff_ne]
    intro e
    subst e
    exact absurd h'.1 (by decide)
  have h4 : (c == '\r') = false := by
    rw [beq_eq_false_iff_ne]
    intro e
    subst e
    exact absurd h'.1 (by decide)
  simp [h1, h2, h3, h4]

theorem skipWs_natToDecimal_append (n : Nat) (r : List Char) :
    skipWs (natToDecimal n ++ r) = natToDecimal n ++ r := by
  rcases hnd : natToDecimal n with _ | ⟨c, t⟩
  · exact absurd hnd (natToDecimal_ne_nil n)
  · have hdigit : isDigitChar c = true := by
      refine isDigitChar_all_natToDecimal n c ?_
      rw [hnd]
      simp
    simp only [List.cons_append]
    exact skipWs_cons_not_ws (not_ws_of_digit hdigit)

theorem parseFields_field_comma (fuel : Nat) (acc : CaptureStats) (key : List Char)
    (v : Nat) (x : List Char)
    (hk : ∀ c ∈ key, (c == quoteC) = false) :
    parseFields (fuel + 1) acc
        (quoteC :: (key ++ quoteC :: ':' :: (natToDecimal v ++ ',' :: x))) =
      parseFields fuel (assignField acc key v) (skipWs x) := by
  have h1 : ¬(quoteC = rbraceC) := by decide
  have h2 : isWsChar ':' = false := by decide
  have h3 : isWsChar ',' = false := by decide
  simp only [parseFields, if_neg h1,
    parseKey_exact key (':' :: (natToDecimal v ++ ',' :: x)) hk,
    skipWs_cons_not_ws h2, skipWs_natToDecimal_append,
    parseNumber_decimal v (',' :: x) (by intro c hc; cases hc; rfl),
    skipWs_cons_not_ws h3]
  simp

theorem parseFields_field_end (fuel : Nat) (acc : CaptureStats) (key : List Char)
    (v : Nat)
    (hk : ∀ c ∈ key, (c == quoteC) = false) :
    parseFields (fuel + 1) acc
        (quoteC :: (key ++ quoteC :: ':' :: (natToDecimal v ++ [rbraceC]))) =
      some (assignField acc key v) := by
  have h1 : ¬(quoteC = rbraceC) := by decide
  have h2 : isWsChar ':' = false := by decide
  have h4 : isWsChar rbraceC = false := by decide
  have h5 : ¬(rbraceC = ',') := by decide
  simp only [parseFields, if_neg h1,
    parseKey_exact key (':' :: (natToDecimal v ++ [rbraceC])) hk,
    skipWs_cons_not_ws h2, skipWs_natToDecimal_append,
    parseNumber_decimal v [rbraceC] (by intro c hc; cases hc; rfl),
    skipWs_cons_not_ws h4, if_neg h5]
  simp [skipWs]

/-- The decode of an encoded stats value recovers the value: the JSON
round-trip at the heart of the stderr stats protocol. -/
theorem jsonUnmarshal_marshal (s : CaptureStats) :
    jsonUnmarshalStats (jsonMarshalStats s) = some s := by
  have hshape : jsonMarshalStats s =
      lbraceC :: (quoteC :: (receivedKey ++ quoteC :: ':' :: (natToDecimal s.received ++
        ',' :: (quoteC :: (droppedKey ++ quoteC :: ':' ::
          (natToDecimal s.dropped ++ [rbraceC])))))) := by
    simp [jsonMarshalStats, List.append_assoc]
  rw [hshape]
  unfold jsonUnmarshalStats
  rw [skipWs_cons_not_ws (by decide : isWsChar lbraceC = false)]
  simp only [if_pos rfl]
  rw [skipWs_cons_not_ws (by decide : isWsChar quoteC = false)]
  rw [List.length_cons]
  rw [parseFields_field_comma _ _ receivedKey _ _ (by decide)]
  rw [skipWs_cons_not_ws (by decide : isWsChar quoteC = false)]
  rw [parseFields_field_end _ _ droppedKey _ (by decide)]
  have hassign : assignField (assignField { received := 0, dropped := 0 } receivedKey s.received)
      droppedKey s.dropped = s := by
    simp [assignField, receivedKey, droppedKey]
  simp [hassign]

end Tlfl

namespace Tlfl

theorem digit_not_newline {c : Char} (h : isDigitChar c = true) : ¬(c = '\n') := by
  intro e
  subst e
  exact absurd h (by decide)

theorem no_newline_append {l r : List Char} (hl : ∀ c ∈ l, ¬(c = '\n'))
    (hr : ∀ c ∈ r, ¬(c = '\n')) : ∀ c ∈ l ++ r, ¬(c = '\n') := by
  intro c hc
  rcases List.mem_append.mp hc with h | h
  · exact hl c h
  · exact hr c h

theorem marshal_no_newline (s : CaptureStats) : ∀ c ∈ jsonMarshalStats s, ¬(c = '\n') := by
  have hD1 : ∀ c ∈ natToDecimal s.received, ¬(c = '\n') :=
    fun c hc => digit_not_newline (isDigitChar_all_natToDecimal _ c hc)
  have hD2 : ∀ c ∈ natToDecimal s.dropped, ¬(c = '\n') :=
    fun c hc => digit_not_newline (isDigitChar_all_natToDecimal _ c hc)
  unfold jsonMarshalStats
  have h1 := no_newline_append (by decide : ∀ c ∈ ([lbraceC, quoteC] : List Char), ¬(c = '\n'))
    (by decide : ∀ c ∈ receivedKey, ¬(c = '\n'))
  have h2 := no_newline_append h1 (by decide : ∀ c ∈ ([quoteC, ':'] : List Char), ¬(c = '\n'))
  have h3 := no_newline_append h2 hD1
  have h4 := no_newline_append h3 (by decide : ∀ c ∈ ([',', quoteC] : List Char), ¬(c = '\n'))
  have h5 := no_newline_append h4 (by decide : ∀ c ∈ droppedKey, ¬(c = '\n'))
  have h6 := no_newline_append h5 (by decide : ∀ c ∈ ([quoteC, ':'] : List Char), ¬(c = '\n'))
  have h7 := no_newline_append h6 hD2
  exact no_newline_append h7 (by decide : ∀ c ∈ ([rbraceC] : List Char), ¬(c = '\n'))

theorem scanLines_single (line : List Char) (h : ∀ c ∈ line, ¬(c = '\n')) :
    scanLines (line ++ ['\n']) = [line] := by
  induction line with
  | nil => rfl
  | cons c t ih =>
      have hc : ¬(c = '\n') := h c (by simp)
      simp only [List.cons_append, scanLines, if_neg hc]
      rw [List.append_eq, ih (fun d hd => h d (by simp [hd]))]

theorem scanLines_serverStatsLine (s : CaptureStats) :
    scanLines (serverStatsLine s) = [statsPrefixChars ++ jsonMarshalStats s] := by
  unfold serverStatsLine
  refine scanLines_single _ ?_
  intro c hc
  rcases List.mem_append.mp hc with h | h
  · exact (by decide : ∀ c ∈ statsPrefixChars, ¬(c = '\n')) c h
  · exact marshal_no_newline s c h

theorem error_stats_prefix_disjoint (line : List Char)
    (h : statsPrefixChars.isPrefixOf line = true) :
    errorPrefixChars.isPrefixOf line = false := by
  cases line with
  | nil => exact absurd h (by decide)
  | cons c rest =>
      have hc : c = 's' := by
        have h' := h
        simp only [statsPrefixChars, List.isPrefixOf, Bool.and_eq_true, beq_iff_eq] at h'
        exact h'.1.symm
      subst hc
      simp [errorPrefixChars, List.isPrefixOf]

theorem watchLine_statsLine (s : CaptureStats) :
    watchLine (statsPrefixChars ++ jsonMarshalStats s) = some (.statsEvent s) := by
  have h2 : statsPrefixChars.isPrefixOf (statsPrefixChars ++ jsonMarshalStats s) = true :=
    List.isPrefixOf_iff_prefix.mpr (List.prefix_append _ _)
  have h1 : errorPrefixChars.isPrefixOf (statsPrefixChars ++ jsonMarshalStats s) = false :=
    error_stats_prefix_disjoint _ h2
  simp only [watchLine, h1, h2, Bool.false_eq_true, if_false, if_true]
  rw [List.drop_left]
  rw [jsonUnmarshal_marshal]

end Tlfl

namespace Tlfl

/-- **C5** A stats line produced by the server (the stats prefix, the
JSON encoding of the CaptureStats value, a terminating newline), read by
`watchStderr`, yields a statistics event structurally equal to the
original value on the statistics channel, provided the supervisor is not
closed and the channel buffer is not full. -/
theorem stats_line_roundtrip (s : CaptureStats) (p : TrafficLogProcess)
    (hclosed : p.closedClosed = false) (hroom : p.statsQ.length < channelBufferSize) :
    watchStderrEvents (serverStatsLine s) = [.statsEvent s] ∧
    (watchStderr p (serverStatsLine s)).statsQ = p.statsQ ++ [s] := by
  have hev : watchStderrEvents (serverStatsLine s) = [.statsEvent s] := by
    unfold watchStderrEvents
    rw [scanLines_serverStatsLine]
    simp [List.filterMap_cons, watchLine_statsLine]
  refine ⟨hev, ?_⟩
  unfold watchStderr
  rw [hev]
  simp [deliverEvent, TrafficLogProcess.sendStats, hclosed, hroom]

/-- **C5 witness**: the round trip of the concrete snapshot ⟨3, 1⟩
through a freshly started supervisor. -/
theorem stats_line_roundtrip_witness :
    watchStderrEvents (serverStatsLine { received := 3, dropped := 1 }) =
      [.statsEvent { received := 3, dropped := 1 }] ∧
    (watchStderr initialProcess (serverStatsLine { received := 3, dropped := 1 })).statsQ =
      initialProcess.statsQ ++ [{ received := 3, dropped := 1 }] :=
  stats_line_roundtrip { received := 3, dropped := 1 } initialProcess rfl (by decide)

/-- **C6** `watchStderr` classifies every line as follows: an
`"error: "`-prefixed line produces exactly one error event carrying the
remainder; a `"stats: "`-prefixed line has the prefix stripped and the
remainder JSON-decoded, a decode failure producing an error event (not a
statistics event and not a crash); every other line produces no event. -/
theorem watch_line_classification (line : List Char) :
    (errorPrefixChars.isPrefixOf line = true →
      watchLine line = some (.errorEvent (line.drop errorPrefixChars.length))) ∧
    (statsPrefixChars.isPrefixOf line = true →
      ∀ s, jsonUnmarshalStats (line.drop statsPrefixChars.length) = some s →
        watchLine line = some (.statsEvent s)) ∧
    (statsPrefixChars.isPrefixOf line = true →
      jsonUnmarshalStats (line.drop statsPrefixChars.length) = none →
      watchLine line = some (.errorEvent unmarshalFailureMsg)) ∧
    (errorPrefixChars.isPrefixOf line = false → statsPrefixChars.isPrefixOf line = false →
      watchLine line = none) := by
  refine ⟨?_, ?_, ?_, ?_⟩
  · intro h
    simp [watchLine, h]
  · intro h s hdec
    have hne := error_stats_prefix_disjoint line h
    simp [watchLine, h, hne, hdec]
  · intro h hdec
    have hne := error_stats_prefix_disjoint line h
    simp [watchLine, h, hne, hdec]
  · intro h1 h2
    simp [watchLine, h1, h2]

/-- **C6 witness**: the four classes at concrete lines, including a
malformed stats payload decoded to an error event. -/
theorem watch_line_classification_witness :
    watchLine (errorPrefixChars ++ ['b', 'o', 'o', 'm']) =
      some (.errorEvent ['b', 'o', 'o', 'm']) ∧
    watchLine (statsPrefixChars ++ jsonMarshalStats { received := 7, dropped := 0 }) =
      some (.statsEvent { received := 7, dropped := 0 }) ∧
    watchLine (statsPrefixChars ++ ['n', 'o', 'p', 'e']) =
      some (.errorEvent unmarshalFailureMsg) ∧
    watchLine ['h', 'i'] = none := by
  refine ⟨?_, ?_, ?_, ?_⟩
  · have h := (watch_line_classification (errorPrefixChars ++ ['b', 'o', 'o', 'm'])).1 (by decide)
    rw [List.drop_left] at h
    exact h
  · refine (watch_line_classification
      (statsPrefixChars ++ jsonMarshalStats { received := 7, dropped := 0 })).2.1
      (List.isPrefixOf_iff_prefix.mpr (List.prefix_append _ _))
      { received := 7, dropped := 0 } ?_
    rw [List.drop_left]
    exact jsonUnmarshal_marshal { received := 7, dropped := 0 }
  · refine (watch_line_classification
      (statsPrefixChars ++ ['n', 'o', 'p', 'e'])).2.2.1 (by decide) ?_
    rw [List.drop_left]
    decide
  · exact (watch_line_classification ['h', 'i']).2.2.2 (by decide) (by decide)

end Tlfl

namespace Tlfl

theorem exitWith_failedCheckError (msg : String) :
    exitcodes.ExitWith (.failedCheckError msg) = exitcodes.FailedCheck := by
  simp [exitcodes.ExitWith, GoError.goAs, GoError.isFailedCheckError]

theorem deviceLoop_test_effects (gid : Int) (devs : List BPFDevice) :
    (deviceLoop true gid devs).2 = [] := by
  induction devs with
  | nil => rfl
  | cons d rest ih =>
      by_cases hstat : d.statOk = false
      · simp [deviceLoop, hstat]
      · by_cases hgid : d.gid ≠ gid
        · simp [deviceLoop, hstat, hgid]
        · by_cases hmode : d.mode &&& groupReadBit ≠ groupReadBit
          · simp [deviceLoop, hstat, hgid, hmode]
          · simp [deviceLoop, hstat, hgid, hmode, ih]

theorem deviceLoop_test_failedCheck (gid : Int) (devs : List BPFDevice)
    (hstat : ∀ d ∈ devs, d.statOk = true)
    (hmis : ∃ d ∈ devs, d.gid ≠ gid ∨ d.mode &&& groupReadBit ≠ groupReadBit) :
    (deviceLoop true gid devs).1 = .exited exitcodes.FailedCheck := by
  induction devs with
  | nil => simp at hmis
  | cons d rest ih =>
      have hds : d.statOk = true := hstat d (by simp)
      by_cases hgid : d.gid ≠ gid
      · simp [deviceLoop, hds, hgid, exitWith_failedCheckError]
      · by_cases hmode : d.mode &&& groupReadBit ≠ groupReadBit
        · simp [deviceLoop, hds, hgid, hmode, exitWith_failedCheckError]
        · have hmis' : ∃ e ∈ rest, e.gid ≠ gid ∨ e.mode &&& groupReadBit ≠ groupReadBit := by
            rcases hmis with ⟨e, he, hor⟩
            rcases List.mem_cons.mp he with rfl | he'
            · rcases hor with h | h
              · exact absurd h hgid
              · exact absurd h hmode
            · exact ⟨e, he', hor⟩
          have hrec := ih (fun x hx => hstat x (by simp [hx])) hmis'
          simp [deviceLoop, hds, hgid, hmode, hrec]

/-- **C9 counterexample** In check mode with a `-stderr` log file
configured and a perfectly configured system, config-bpf still writes a
file: it truncates the provided log file via `os.Create` before any
check, so "writes no files" does not hold of check mode as claimed. -/
theorem configbpf_check_mode_writes_logfile :
    checkModeLogEnv.testMode = true ∧
    (configBPFMain checkModeLogEnv).1 = .completed ∧
    (configBPFMain checkModeLogEnv).2 = [.createFile "/var/log/config-bpf.err"] :=
  ⟨rfl, rfl, rfl⟩

/-- **C9 (amended)** In check mode the Device Configurator performs no
chown, no chmod and no device-creating read; its only file writes are the
truncation of the caller-provided stdout/stderr log files (performed in
either mode), so with no log files configured it performs no mutating
call at all; and any misconfigured device (wrong group or missing
group-read) makes it exit with the FailedCheck code, no mutation having
occurred. -/
theorem configbpf_check_mode_frame (env : ConfigBPFEnv) (htest : env.testMode = true) :
    (configBPFMain env).2 = logTruncationEffects env ∧
    (env.stderrFile = "" → env.stdoutFile = "" → (configBPFMain env).2 = []) ∧
    (∀ gid startDevice endDevice devs,
      env.lookupGroup = .ok gid → env.walkHighest = .ok startDevice →
      getMaxBPFDevices env.sysctlMax = .ok endDevice → env.walkDevices = .ok devs →
      (∀ d ∈ devs, d.statOk = true) →
      (∃ d ∈ devs, d.gid ≠ gid ∨ d.mode &&& groupReadBit ≠ groupReadBit) →
      (configBPFMain env).1 = .exited exitcodes.FailedCheck) := by
  have heff : (configBPFMain env).2 = logTruncationEffects env := by
    unfold configBPFMain
    cases hlg : env.lookupGroup with
    | error msg => simp
    | ok gid =>
        cases hwh : env.walkHighest with
        | error msg => simp
        | ok sd =>
            cases hmx : getMaxBPFDevices env.sysctlMax with
            | error msg => simp
            | ok ed =>
                cases hwd : env.walkDevices with
                | error msg => simp [htest]
                | ok devs =>
                    by_cases hlen : devs.length = 0
                    · simp [htest, hlen]
                    · simp [htest, hlen, deviceLoop_test_effects]
  refine ⟨heff, ?_, ?_⟩
  · intro h1 h2
    rw [heff]
    simp [logTruncationEffects, h1, h2]
  · intro gid sd ed devs hlg hwh hmx hwd hstat hmis
    have hlen : ¬ devs.length = 0 := by
      rcases hmis with ⟨e, he, _⟩
      intro h0
      rw [List.length_eq_zero] at h0
      subst h0
      simp at he
    unfold configBPFMain
    rw [hlg, hwh, hmx, hwd]
    simp only [htest, hlen, if_false]
    simp [htest, hlen, deviceLoop_test_failedCheck gid devs hstat hmis]

/-- **C9 witness**: a check-mode run with no log files and one
misconfigured device makes no mutating call and exits FailedCheck. -/
theorem configbpf_check_mode_frame_witness :
    (configBPFMain checkModeMisconfigEnv).2 = [] ∧
    (configBPFMain checkModeMisconfigEnv).1 = .exited exitcodes.FailedCheck := by
  have h := configbpf_check_mode_frame checkModeMisconfigEnv rfl
  refine ⟨h.2.1 rfl rfl, ?_⟩
  refine h.2.2 20 0 4 [⟨0, true, 0, 0, true, true⟩] rfl rfl rfl rfl ?_ ?_
  · intro d hd
    rcases List.mem_cons.mp hd with rfl | hd'
    · rfl
    · exact absurd hd' (List.not_mem_nil d)
  · exact ⟨⟨0, true, 0, 0, true, true⟩, List.mem_cons_self _ _, Or.inl (by decide)⟩

end Tlfl
